import Mathlib

/-!
Shallow embedding of the Boxxed camera and character controllers
(src/camera.rs, src/character.rs).  The Rust code computes over `f32`
vectors (glam `Vec3`, `Quat`) which we idealise as real-valued vectors and
quaternions; `f32` literals such as `9.81`, `5.0`, `0.2` become exact
rationals embedded in ℝ.
-/

noncomputable section

/-- glam `Vec3` with `f32` idealised as ℝ. -/
structure Vec3 where
  x : ℝ
  y : ℝ
  z : ℝ

namespace Vec3

/-- `Vec3::ZERO`. -/
def zero : Vec3 := ⟨0, 0, 0⟩

/-- Componentwise addition (`Add` impl of glam `Vec3`). -/
def add (a b : Vec3) : Vec3 := ⟨a.x + b.x, a.y + b.y, a.z + b.z⟩

/-- Scalar multiplication `Vec3 * f32` (glam `Mul<f32>`). -/
def mul (a : Vec3) (s : ℝ) : Vec3 := ⟨a.x * s, a.y * s, a.z * s⟩

/-- glam `Vec3::length_squared`. -/
def lengthSquared (a : Vec3) : ℝ := a.x * a.x + a.y * a.y + a.z * a.z

/-- glam `Vec3::length`. -/
def length (a : Vec3) : ℝ := Real.sqrt a.lengthSquared

/-- glam `Vec3::clamp_length(min, max)`: rescale to `min` when shorter than
`min`, rescale to `max` when longer than `max`, otherwise unchanged. -/
def clampLength (a : Vec3) (mn mx : ℝ) : Vec3 :=
  if a.lengthSquared < mn * mn then a.mul (mn / Real.sqrt a.lengthSquared)
  else if mx * mx < a.lengthSquared then a.mul (mx / Real.sqrt a.lengthSquared)
  else a

theorem lengthSquared_nonneg (a : Vec3) : 0 ≤ a.lengthSquared := by
  have hx := mul_self_nonneg a.x
  have hy := mul_self_nonneg a.y
  have hz := mul_self_nonneg a.z
  unfold lengthSquared
  linarith

theorem lengthSquared_mul (a : Vec3) (s : ℝ) :
    (a.mul s).lengthSquared = a.lengthSquared * (s * s) := by
  unfold lengthSquared mul
  ring

theorem length_mul (a : Vec3) (s : ℝ) : (a.mul s).length = a.length * |s| := by
  unfold length
  rw [lengthSquared_mul, Real.sqrt_mul (lengthSquared_nonneg a),
    Real.sqrt_mul_self_eq_abs]

/-- The length of `clampLength 0 mx` never exceeds `mx` (for `0 ≤ mx`). -/
theorem length_clampLength_zero_le (a : Vec3) (mx : ℝ) (hmx : 0 ≤ mx) :
    (a.clampLength 0 mx).length ≤ mx := by
  unfold clampLength
  have h0 : ¬ a.lengthSquared < 0 * 0 := by
    simpa using not_lt.mpr (lengthSquared_nonneg a)
  rw [if_neg h0]
  by_cases h : mx * mx < a.lengthSquared
  · rw [if_pos h, length_mul]
    have hLpos : 0 < a.lengthSquared := lt_of_le_of_lt (mul_self_nonneg mx) h
    have hs : 0 < Real.sqrt a.lengthSquared := Real.sqrt_pos.mpr hLpos
    have habs : |mx / Real.sqrt a.lengthSquared| = mx / Real.sqrt a.lengthSquared :=
      abs_of_nonneg (div_nonneg hmx hs.le)
    rw [habs]
    unfold length
    rw [mul_comm, div_mul_cancel₀ mx hs.ne']
  · rw [if_neg h]
    have hle : a.lengthSquared ≤ mx * mx := not_lt.mp h
    calc a.length ≤ Real.sqrt (mx * mx) := Real.sqrt_le_sqrt hle
      _ = mx := by rw [Real.sqrt_mul_self hmx]

end Vec3

/-- `CameraState` from src/camera.rs. -/
inductive CameraState where
  | FreeFloat
  | Locked
  | Fps
  | Editor
deriving DecidableEq, Repr

/-- Bevy `Projection`: perspective (with a field of view) or orthographic. -/
inductive Projection where
  | Perspective (fov : ℝ)
  | Orthographic

/-- `update_camera_state` from src/camera.rs: the sensitivity trigger scales
`move_sens` by `5.0` on just-pressed and by `0.2` on just-released, and the
free-float toggle, on just-pressed, sends FreeFloat to Editor and every other
mode to FreeFloat.  Returns the new `(move_sens, mode)` pair. -/
def update_camera_state (sensJustPressed sensJustReleased toggleJustPressed : Bool)
    (moveSens : ℝ) (s : CameraState) : ℝ × CameraState :=
  let m1 := if sensJustPressed then moveSens * 5.0 else moveSens
  let m2 := if sensJustReleased then m1 * 0.2 else m1
  let s2 :=
    if toggleJustPressed then
      match s with
      | CameraState.FreeFloat => CameraState.Editor
      | _ => CameraState.FreeFloat
    else s
  (m2, s2)

/-- `update_camera_zoom` from src/camera.rs: returns the projection unchanged
when the zoom axis pair has zero squared length; otherwise, for a perspective
projection, adds `-zoom.y * look_sens` to the field of view. -/
def update_camera_zoom (proj : Projection) (lookSens : ℝ) (zoom : ℝ × ℝ) :
    Projection :=
  if zoom.1 * zoom.1 + zoom.2 * zoom.2 = 0 then proj
  else
    match proj with
    | Projection.Perspective fov => Projection.Perspective (fov + -zoom.2 * lookSens)
    | Projection.Orthographic => Projection.Orthographic

/-- C4: pressing the sensitivity boost multiplies `move_sens` by 5, and the
subsequent release multiplies by 0.2, restoring the original value exactly:
the release is the exact inverse of the press. -/
theorem sens_boost_round_trip (m : ℝ) (s s' : CameraState) :
    (update_camera_state false true false
      (update_camera_state true false false m s).1 s').1 = m := by
  show m * 5.0 * 0.2 = m
  norm_num
  ring

/-- C5: the free-float toggle maps FreeFloat to Editor and Locked, Fps, Editor
all to FreeFloat, so toggling twice from FreeFloat returns to FreeFloat. -/
theorem camera_toggle_involution (sp sr : Bool) (m m' : ℝ) :
    (update_camera_state sp sr true m CameraState.FreeFloat).2 = CameraState.Editor ∧
    (update_camera_state sp sr true m CameraState.Locked).2 = CameraState.FreeFloat ∧
    (update_camera_state sp sr true m CameraState.Fps).2 = CameraState.FreeFloat ∧
    (update_camera_state sp sr true m CameraState.Editor).2 = CameraState.FreeFloat ∧
    (update_camera_state sp sr true m'
      (update_camera_state sp sr true m CameraState.FreeFloat).2).2 =
      CameraState.FreeFloat := by
  refine ⟨rfl, rfl, rfl, rfl, rfl⟩

/-- `CharacterMovement` from src/character.rs. -/
inductive CharacterMovement where
  | Left
  | Right
  | Back
  | Forward
deriving DecidableEq, Repr

namespace CharacterMovement

/-- `CharacterMovement::into_vec`: Right ↦ X, Left ↦ -X, Back ↦ Z,
Forward ↦ -Z (all horizontal unit vectors). -/
def into_vec : CharacterMovement → Vec3
  | Right => ⟨1, 0, 0⟩
  | Left => ⟨-1, 0, 0⟩
  | Back => ⟨0, 0, 1⟩
  | Forward => ⟨0, 0, -1⟩

/-- The fixed enumeration of movement actions, used to turn a held-predicate
into the list the input manager's `get_pressed` reports. -/
def all : List CharacterMovement := [Left, Right, Back, Forward]

end CharacterMovement

/-- `CharacterState` (consumed by src/character.rs; its variants are Idle,
Walk, Run, Crouch, Slide, Jump per the spec's data model). -/
inductive CharacterState where
  | Idle
  | Walk
  | Run
  | Crouch
  | Slide
  | Jump
deriving DecidableEq, Repr

/-- Modelled from the spec: `CharacterSpeed` (defined outside the excerpt, in
the crate prelude) is "a scalar wrapping an integer speed"; `get` exposes it
as the `f32` (here ℝ) used by the force computations. -/
structure CharacterSpeed where
  val : ℕ
deriving DecidableEq, Repr

/-- `CharacterSpeed::get`, the wrapped integer as a scalar. -/
def CharacterSpeed.get (s : CharacterSpeed) : ℝ := s.val

/-- `CharacterSpeedSettings` from src/character.rs. -/
structure CharacterSpeedSettings where
  base : CharacterSpeed
  run : CharacterSpeed
  crouch : CharacterSpeed
  slide : CharacterSpeed

/-- `CharacterForces` from src/character.rs. -/
structure CharacterForces where
  gravity : Vec3
  movement : Vec3
  actions : Vec3

/-- `CharacterMovementController` from src/character.rs. -/
structure CharacterMovementController where
  speed : CharacterSpeedSettings
  forces : CharacterForces
  jump_force : ℝ
  grounded : Bool
  height : ℝ
  mass : ℝ

/-- `update_gravity_force`: if the resolver reported grounded, the gravity
force is reset to the zero vector; otherwise `(0, -9.81, 0) * mass * dt` is
added to it.  Returns the new `forces.gravity`. -/
def update_gravity_force (physicsGrounded : Bool) (gravity : Vec3)
    (mass dt : ℝ) : Vec3 :=
  if physicsGrounded then Vec3.zero
  else gravity.add ((Vec3.mul ⟨0, -9.81, 0⟩ mass).mul dt)

/-- Sum of a list of vectors (Rust `Iterator::sum`). -/
def vecSum (l : List Vec3) : Vec3 := l.foldr Vec3.add Vec3.zero

/-- `update_movement_force`: the sum of `into_vec` over the currently pressed
movement actions, multiplied by the current speed, then
`clamp_length(0, speed)`.  Returns the new `forces.movement`. -/
def update_movement_force (held : CharacterMovement → Bool)
    (speed : CharacterSpeed) : Vec3 :=
  ((vecSum ((CharacterMovement.all.filter held).map
      CharacterMovement.into_vec)).mul speed.get).clampLength 0 speed.get

/-- `update_player_speed`: Run ↦ run, Walk ↦ base, Slide ↦ slide,
Crouch ↦ crouch; any other state makes no transition and keeps the previous
speed. -/
def update_player_speed (state : CharacterState)
    (settings : CharacterSpeedSettings) (prev : CharacterSpeed) :
    CharacterSpeed :=
  match state with
  | CharacterState.Run => settings.run
  | CharacterState.Walk => settings.base
  | CharacterState.Slide => settings.slide
  | CharacterState.Crouch => settings.crouch
  | _ => prev

/-- `update_action_force`: Slide ↦ the current movement force, Jump ↦
`(0, jump_force, 0)`, any other state ↦ zero.  Returns the new
`forces.actions`. -/
def update_action_force (state : CharacterState) (movement : Vec3)
    (jumpForce : ℝ) : Vec3 :=
  match state with
  | CharacterState.Slide => movement
  | CharacterState.Jump => ⟨0, jumpForce, 0⟩
  | _ => Vec3.zero

/-- The pure quaternion with the given vector part. -/
def pureQuat (v : Vec3) : Quaternion ℝ := ⟨0, v.x, v.y, v.z⟩

/-- Rotation of a vector by a quaternion, `q * v` in glam: the vector part of
`q * v * q.conjugate` (glam's `mul_vec3` formula equals this for every
quaternion). -/
def rotateVec (q : Quaternion ℝ) (v : Vec3) : Vec3 :=
  let p := q * pureQuat v * star q
  ⟨p.imI, p.imJ, p.imK⟩

/-- glam `Quat::from_rotation_x`: rotation about the X axis by `angle`. -/
def fromRotX (angle : ℝ) : Quaternion ℝ :=
  ⟨Real.cos (angle / 2), Real.sin (angle / 2), 0, 0⟩

/-- glam `Quat::from_rotation_y`: rotation about the Y (world-up) axis by
`angle`. -/
def fromRotY (angle : ℝ) : Quaternion ℝ :=
  ⟨Real.cos (angle / 2), 0, Real.sin (angle / 2), 0⟩

/-- `update_player_pos`: the translation request handed to the kinematic
character controller is `(movement + actions + gravity) * dt` rotated by the
transform's rotation. -/
def update_player_pos (rotation : Quaternion ℝ) (forces : CharacterForces)
    (dt : ℝ) : Vec3 :=
  rotateVec rotation (((forces.movement.add forces.actions).add
    forces.gravity).mul dt)

/-- `update_camera_rot`: when the mode is FreeFloat or the move trigger is
held, pre-multiply a yaw of `-motion.x * look_sens` about world Y onto the
rotation, then post-multiply a rotation of `-motion.y * look_sens` about X
(i.e. pitch about the post-yaw local X axis); otherwise leave the rotation
unchanged. -/
def update_camera_rot (state : CameraState) (triggered : Bool)
    (motionPair : ℝ × ℝ) (lookSens : ℝ) (rotation : Quaternion ℝ) :
    Quaternion ℝ :=
  if state = CameraState.FreeFloat ∨ triggered = true then
    fromRotY (-motionPair.1 * lookSens) * rotation *
      fromRotX (-motionPair.2 * lookSens)
  else rotation

/-- The result of one character-pipeline tick. -/
structure CharacterTickResult where
  speedValue : CharacterSpeed
  forces : CharacterForces
  translation : Vec3

/-- One tick of the character pipeline in the spec's stage order: speed,
gravity, action, movement, then position integration
(`update_player_pos` reads the freshly written forces). -/
def characterTick (c : CharacterMovementController) (state : CharacterState)
    (curSpeed : CharacterSpeed) (physicsGrounded : Bool)
    (held : CharacterMovement → Bool) (rotation : Quaternion ℝ) (dt : ℝ) :
    CharacterTickResult :=
  let speedValue := update_player_speed state c.speed curSpeed
  let gravity := update_gravity_force physicsGrounded c.forces.gravity c.mass dt
  let actions := update_action_force state c.forces.movement c.jump_force
  let movement := update_movement_force held speedValue
  let forces : CharacterForces := ⟨gravity, movement, actions⟩
  ⟨speedValue, forces, update_player_pos rotation forces dt⟩

theorem Vec3.mul_zero_vec (s : ℝ) : Vec3.zero.mul s = Vec3.zero := by
  simp [Vec3.zero, Vec3.mul]

theorem Vec3.clampLength_zero_vec (mx : ℝ) :
    Vec3.zero.clampLength 0 mx = Vec3.zero := by
  have h : Vec3.zero.lengthSquared = 0 := by
    norm_num [Vec3.zero, Vec3.lengthSquared]
  unfold Vec3.clampLength
  rw [h, if_neg (by norm_num), if_neg (not_lt.mpr (mul_self_nonneg mx))]

theorem rotateVec_zero_vec (q : Quaternion ℝ) :
    rotateVec q Vec3.zero = Vec3.zero := by
  have h : pureQuat Vec3.zero = 0 := rfl
  unfold rotateVec
  rw [h, mul_zero, zero_mul]
  rfl

theorem gravity_iterate_y (g : Vec3) (mass dt : ℝ) (n : ℕ) :
    ((fun v => update_gravity_force false v mass dt)^[n] g).y
      = g.y - 9.81 * mass * dt * n := by
  induction n with
  | zero => simp
  | succ k ih =>
    rw [Function.iterate_succ_apply']
    show ((fun v => update_gravity_force false v mass dt)^[k] g).y
        + -9.81 * mass * dt = g.y - 9.81 * mass * dt * (k + 1 : ℕ)
    rw [ih]
    push_cast
    ring

/-- C1: after a grounded tick the gravity force is the zero vector; an
airborne tick adds exactly world-down scaled by `9.81 * mass * dt`; and for
positive `mass` and `dt` the downward component of gravity strictly increases
over consecutive airborne ticks. -/
theorem gravity_reset_and_accumulation (g : Vec3) (mass dt : ℝ)
    (hm : 0 < mass) (hdt : 0 < dt) :
    update_gravity_force true g mass dt = Vec3.zero ∧
    update_gravity_force false g mass dt
      = g.add (Vec3.mul ⟨0, -1, 0⟩ (9.81 * mass * dt)) ∧
    StrictMono (fun n : ℕ =>
      -(((fun v => update_gravity_force false v mass dt)^[n] g).y)) := by
  refine ⟨rfl, ?_, ?_⟩
  · show Vec3.add g _ = Vec3.add g _
    unfold Vec3.add Vec3.mul
    norm_num [Vec3.mk.injEq]
  · apply strictMono_nat_of_lt_succ
    intro n
    have hpos : 0 < 9.81 * mass * dt := by positivity
    rw [gravity_iterate_y, gravity_iterate_y]
    push_cast
    nlinarith

/-- Witness for C1 at `g = 0`, `mass = 30`, `dt = 1/10`. -/
theorem gravity_reset_and_accumulation_witness :
    update_gravity_force true Vec3.zero 30 (1/10) = Vec3.zero ∧
    update_gravity_force false Vec3.zero 30 (1/10)
      = Vec3.zero.add (Vec3.mul ⟨0, -1, 0⟩ (9.81 * 30 * (1/10))) ∧
    StrictMono (fun n : ℕ =>
      -(((fun v => update_gravity_force false v 30 (1/10))^[n] Vec3.zero).y)) :=
  gravity_reset_and_accumulation Vec3.zero 30 (1/10) (by norm_num) (by norm_num)

/-- C2: the movement force is the sum of the held directions' unit vectors
scaled by the current speed and clamped to magnitude in `[0, speed]`; in
particular its length never exceeds the speed value, whatever combination of
directions is held. -/
theorem movement_force_clamped (held : CharacterMovement → Bool)
    (speed : CharacterSpeed) :
    update_movement_force held speed
      = ((vecSum ((CharacterMovement.all.filter held).map
          CharacterMovement.into_vec)).mul speed.get).clampLength 0 speed.get ∧
    (update_movement_force held speed).length ≤ speed.get :=
  ⟨rfl, Vec3.length_clampLength_zero_le _ _ (Nat.cast_nonneg _)⟩

/-- C3: the action force is Slide ↦ the current movement force vector itself,
Jump ↦ `(0, jump_force, 0)` independent of the movement input, and the zero
vector in every other state. -/
theorem action_force_cases (movement : Vec3) (jumpForce : ℝ) :
    update_action_force CharacterState.Slide movement jumpForce = movement ∧
    update_action_force CharacterState.Jump movement jumpForce
      = ⟨0, jumpForce, 0⟩ ∧
    update_action_force CharacterState.Idle movement jumpForce = Vec3.zero ∧
    update_action_force CharacterState.Walk movement jumpForce = Vec3.zero ∧
    update_action_force CharacterState.Run movement jumpForce = Vec3.zero ∧
    update_action_force CharacterState.Crouch movement jumpForce = Vec3.zero :=
  ⟨rfl, rfl, rfl, rfl, rfl, rfl⟩

/-- C6: the speed value is Run ↦ run speed, Walk ↦ base speed, Slide ↦ slide
speed, Crouch ↦ crouch speed, and the previous value (not zero) in the Idle
and Jump states. -/
theorem player_speed_cases (settings : CharacterSpeedSettings)
    (prev : CharacterSpeed) :
    update_player_speed CharacterState.Run settings prev = settings.run ∧
    update_player_speed CharacterState.Walk settings prev = settings.base ∧
    update_player_speed CharacterState.Slide settings prev = settings.slide ∧
    update_player_speed CharacterState.Crouch settings prev = settings.crouch ∧
    update_player_speed CharacterState.Idle settings prev = prev ∧
    update_player_speed CharacterState.Jump settings prev = prev :=
  ⟨rfl, rfl, rfl, rfl, rfl, rfl⟩

theorem update_movement_force_none (speed : CharacterSpeed) :
    update_movement_force (fun _ => false) speed = Vec3.zero := by
  have h : update_movement_force (fun _ => false) speed
      = (Vec3.zero.mul speed.get).clampLength 0 speed.get := rfl
  rw [h, Vec3.mul_zero_vec, Vec3.clampLength_zero_vec]

/-- C7: the submitted translation request is always
`(movement + actions + gravity) * dt` rotated by the character's rotation,
and in a tick with grounded feedback true, no held movement input, and state
Idle, the request is the zero vector. -/
theorem translation_request (c : CharacterMovementController)
    (state : CharacterState) (curSpeed : CharacterSpeed)
    (physicsGrounded : Bool) (held : CharacterMovement → Bool)
    (rotation : Quaternion ℝ) (dt : ℝ) :
    (characterTick c state curSpeed physicsGrounded held rotation dt).translation
      = rotateVec rotation
          ((((characterTick c state curSpeed physicsGrounded held rotation
                dt).forces.movement.add
              (characterTick c state curSpeed physicsGrounded held rotation
                dt).forces.actions).add
            (characterTick c state curSpeed physicsGrounded held rotation
              dt).forces.gravity).mul dt) ∧
    (physicsGrounded = true → held = (fun _ => false) →
      state = CharacterState.Idle →
      (characterTick c state curSpeed physicsGrounded held rotation
        dt).translation = Vec3.zero) := by
  constructor
  · rfl
  · intro hg hheld hstate
    subst hg hheld hstate
    have h1 : (characterTick c CharacterState.Idle curSpeed true
        (fun _ => false) rotation dt).translation
        = rotateVec rotation
            ((((update_movement_force (fun _ => false)
                (update_player_speed CharacterState.Idle c.speed
                  curSpeed)).add Vec3.zero).add Vec3.zero).mul dt) := rfl
    rw [h1, update_movement_force_none]
    have h2 : ((Vec3.zero.add Vec3.zero).add Vec3.zero).mul dt = Vec3.zero := by
      simp [Vec3.zero, Vec3.add, Vec3.mul]
    rw [h2, rotateVec_zero_vec]

/-- Witness for C7: a grounded, input-free, Idle tick of the spawned
controller submits the zero translation request. -/
theorem translation_request_witness :
    (characterTick
        ⟨⟨⟨10⟩, ⟨20⟩, ⟨5⟩, ⟨25⟩⟩, ⟨Vec3.zero, Vec3.zero, Vec3.zero⟩,
          30, false, 2, 30⟩
        CharacterState.Idle ⟨10⟩ true (fun _ => false) 1 (1/10)).translation
      = Vec3.zero :=
  (translation_request
    ⟨⟨⟨10⟩, ⟨20⟩, ⟨5⟩, ⟨25⟩⟩, ⟨Vec3.zero, Vec3.zero, Vec3.zero⟩, 30, false, 2, 30⟩
    CharacterState.Idle ⟨10⟩ true (fun _ => false) 1 (1/10)).2 rfl rfl rfl

/-- C8: with a zero zoom delta the projection is returned unchanged; with a
nonzero delta the perspective field of view changes by `-dy * look_sens`. -/
theorem zoom_noop_and_delta (f lookSens dx dy : ℝ) (h : ¬(dx = 0 ∧ dy = 0)) :
    update_camera_zoom (Projection.Perspective f) lookSens (0, 0)
      = Projection.Perspective f ∧
    update_camera_zoom (Projection.Perspective f) lookSens (dx, dy)
      = Projection.Perspective (f + -dy * lookSens) := by
  have hcond : dx * dx + dy * dy ≠ 0 := by
    intro h0
    have hx : dx * dx = 0 := by nlinarith [mul_self_nonneg dx, mul_self_nonneg dy]
    have hy : dy * dy = 0 := by nlinarith [mul_self_nonneg dx, mul_self_nonneg dy]
    exact h ⟨mul_self_eq_zero.mp hx, mul_self_eq_zero.mp hy⟩
  constructor
  · norm_num [update_camera_zoom]
  · unfold update_camera_zoom
    rw [if_neg hcond]

/-- Witness for C8 at `fov = 1`, `look_sens = 2`, delta `(0, 1)`. -/
theorem zoom_noop_and_delta_witness :
    update_camera_zoom (Projection.Perspective 1) 2 (0, 0)
      = Projection.Perspective 1 ∧
    update_camera_zoom (Projection.Perspective 1) 2 (0, 1)
      = Projection.Perspective (1 + -1 * 2) :=
  zoom_noop_and_delta 1 2 0 1 (by norm_num)

theorem normSq_fromRotY (θ : ℝ) : Quaternion.normSq (fromRotY θ) = 1 := by
  simp [fromRotY, Quaternion.normSq_def']

/-- C9: whenever the rotation update applies (FreeFloat mode, or the move
trigger held), the new orientation is the yaw `fromRotY (-dx * look_sens)`
pre-multiplied onto the old orientation, followed by the pitch about the
post-yaw local X axis — the world X rotation `fromRotX (-dy * look_sens)`
conjugated into the post-yaw frame — pre-multiplied onto the post-yaw
orientation (for a unit orientation quaternion). -/
theorem camera_rot_composition (state : CameraState) (triggered : Bool)
    (dx dy lookSens : ℝ) (rotation : Quaternion ℝ)
    (happly : state = CameraState.FreeFloat ∨ triggered = true)
    (hunit : Quaternion.normSq rotation = 1) :
    update_camera_rot state triggered (dx, dy) lookSens rotation
      = fromRotY (-dx * lookSens) * rotation * fromRotX (-dy * lookSens) ∧
    update_camera_rot state triggered (dx, dy) lookSens rotation
      = ((fromRotY (-dx * lookSens) * rotation) * fromRotX (-dy * lookSens) *
          star (fromRotY (-dx * lookSens) * rotation)) *
          (fromRotY (-dx * lookSens) * rotation) := by
  have h1 : update_camera_rot state triggered (dx, dy) lookSens rotation
      = fromRotY (-dx * lookSens) * rotation * fromRotX (-dy * lookSens) := by
    unfold update_camera_rot
    rw [if_pos happly]
  refine ⟨h1, ?_⟩
  rw [h1]
  have hq1 : star (fromRotY (-dx * lookSens) * rotation) *
      (fromRotY (-dx * lookSens) * rotation) = 1 := by
    have hn : Quaternion.normSq (fromRotY (-dx * lookSens) * rotation) = 1 := by
      rw [map_mul, normSq_fromRotY, hunit, mul_one]
    rw [Quaternion.star_mul_self, hn]
    norm_num
  rw [mul_assoc (fromRotY (-dx * lookSens) * rotation * fromRotX (-dy * lookSens)),
    hq1, mul_one]

/-- Witness for C9 at the identity orientation in FreeFloat mode. -/
theorem camera_rot_composition_witness :
    update_camera_rot CameraState.FreeFloat false (0, 0) 1 1
      = fromRotY (-0 * 1) * 1 * fromRotX (-0 * 1) ∧
    update_camera_rot CameraState.FreeFloat false (0, 0) 1 1
      = ((fromRotY (-0 * 1) * 1) * fromRotX (-0 * 1) *
          star (fromRotY (-0 * 1) * 1)) * (fromRotY (-0 * 1) * 1) :=
  camera_rot_composition CameraState.FreeFloat false 0 0 1 1 (Or.inl rfl)
    (map_one Quaternion.normSq)

theorem into_vec_y (m : CharacterMovement) : m.into_vec.y = 0 := by
  cases m <;> rfl

theorem vecSum_map_into_vec_y (l : List CharacterMovement) :
    (vecSum (l.map CharacterMovement.into_vec)).y = 0 := by
  induction l with
  | nil => rfl
  | cons hd tl ih =>
    show hd.into_vec.y + (vecSum (tl.map CharacterMovement.into_vec)).y = 0
    rw [ih, into_vec_y, add_zero]

theorem Vec3.clampLength_y_eq_zero (a : Vec3) (mn mx : ℝ) (h : a.y = 0) :
    (a.clampLength mn mx).y = 0 := by
  unfold Vec3.clampLength
  split_ifs <;> simp [Vec3.mul, h]

theorem rotateVec_fromRotY_y (θ : ℝ) (v : Vec3) :
    (rotateVec (fromRotY θ) v).y = v.y := by
  have hpyth := Real.sin_sq_add_cos_sq (θ / 2)
  simp only [rotateVec, fromRotY, pureQuat, Quaternion.mul_imJ,
    Quaternion.mul_re, Quaternion.mul_imI, Quaternion.mul_imK,
    Quaternion.star_re, Quaternion.star_imI, Quaternion.star_imJ,
    Quaternion.star_imK]
  linear_combination v.y * hpyth

/-- C10: whatever movement directions are held, the movement force has zero
vertical component, so the vertical component of the integrated displacement
(before and after rotation by the character's facing yaw) comes only from the
action and gravity contributions. -/
theorem movement_force_horizontal (held : CharacterMovement → Bool)
    (speed : CharacterSpeed) (a g : Vec3) (dt θ : ℝ) :
    (update_movement_force held speed).y = 0 ∧
    ((((update_movement_force held speed).add a).add g).mul dt).y
      = (a.y + g.y) * dt ∧
    (rotateVec (fromRotY θ)
        ((((update_movement_force held speed).add a).add g).mul dt)).y
      = (a.y + g.y) * dt := by
  have part1 : (update_movement_force held speed).y = 0 := by
    unfold update_movement_force
    apply Vec3.clampLength_y_eq_zero
    show (vecSum ((CharacterMovement.all.filter held).map
        CharacterMovement.into_vec)).y * speed.get = 0
    rw [vecSum_map_into_vec_y, zero_mul]
  have part2 : ((((update_movement_force held speed).add a).add g).mul dt).y
      = (a.y + g.y) * dt := by
    show ((update_movement_force held speed).y + a.y + g.y) * dt
        = (a.y + g.y) * dt
    rw [part1]
    ring
  exact ⟨part1, part2, by rw [rotateVec_fromRotY_y]; exact part2⟩
